import Mathlib

/-!
Verification development for the sev-step userland library.

The definitions below are a shallow embedding of the core of
`sev_step_lib`: the typed events and the error enumeration of
`src/sev_step_lib/src/api.rs`, the shared-memory mailbox together with the
polling loop of `SevStep::block_untill_event` and `SevStep::ack_event`, the
orchestration loop of `TargetedStepper::run`
(`src/sev_step_lib/src/single_stepper.rs`), and the built-in event handler
state machines (`SkipIfNotOnTargetGPAs`, `StopAfterNSingleStepsHandler`,
`SkipUntilPageFaultSequence`, `SkipUntilNSingleSteps`).

Machine integers of the source (u32, u64, usize) are modelled as `Nat`:
none of the verified operations can overflow them (counters only grow by
one per received event, addresses are only compared for equality).
Concurrency (the background trigger thread, the abort channel and the
driver writing into the mailbox) is modelled by an explicit per-iteration
environment: each busy-poll iteration of `block_untill_event` observes one
`PollEnv` describing what `try_recv` on the two channels returns in that
iteration, whether the driver has posted an event, and whether the wall
clock has passed the optional deadline.  Error strings of the source are
abbreviated to constant messages; control flow never depends on their text.
-/

namespace SevStep

/-- Control-flow result returned by event handlers
(`single_stepper.rs`, `StateMachineNextAction`). -/
inductive StateMachineNextAction
  | NEXT
  | SKIP
  | SHUTDOWN
  | ErrorShutdown (message : String)
deriving DecidableEq, Repr

/-- Register snapshot decoded from the driver's partial VMCB save area.
Modelled from the spec: the bindgen-generated
`sev_step_partial_vmcb_save_area_t` is generated from kernel headers that
are not part of this repository; the spec describes it as an optional
register snapshot, and the handlers read exactly one register from it (the
instruction pointer, via `get_register(VRN_RIP)`), so the model keeps the
instruction pointer value. -/
structure VmcbSaveArea where
  rip : Nat
deriving DecidableEq, Repr

/-- Cache attack probe data attached to a step event (`api.rs`, `CacheTrace`). -/
structure CacheTrace where
  timing_probes : List Nat
  perf_counter_probes : List Nat
deriving DecidableEq, Repr

/-- A single-stepping event (`api.rs`, `SevStepEvent`). -/
structure SevStepEvent where
  retired_instructions : Nat
  register_values : Option VmcbSaveArea
  cache_trace : Option CacheTrace
deriving DecidableEq, Repr

/-- Read access to the instruction pointer of the register file
(`api.rs`, `SevStepEvent::get_register` applied to `VRN_RIP`).
Returns `none` when no decrypted register snapshot is present. -/
def SevStepEvent.get_register_rip (e : SevStepEvent) : Option Nat :=
  e.register_values.map VmcbSaveArea.rip

/-- A page tracking event (`api.rs`, `PageFaultEvent`). -/
structure PageFaultEvent where
  faulted_gpa : Nat
  register_values : Option VmcbSaveArea
deriving DecidableEq, Repr

/-- Typed event decoded from the mailbox (`api.rs`, `Event`). -/
inductive Event
  | PageFaultEvent (e : PageFaultEvent)
  | StepEvent (e : SevStepEvent)
deriving DecidableEq, Repr

/-- The error enumeration of the library (`api.rs`, `SevStepError`).
Note that the enumeration has exactly these five variants: there is no
dedicated variant for an abort; the abort paths of `block_untill_event`
construct the catch-all `Other` variant.  `anyhow::Error` payloads are
modelled as their message strings, the `kvm_page_track_mode` payload as a
`Nat` discriminant. -/
inductive SevStepError
  | TriggerFailed (source : String)
  | Timeout
  | PageTracking (gpa : Nat) (tracking_mode : Nat) (message : String)
  | MultiStep (event : SevStepEvent)
  | Other (msg : String)
deriving DecidableEq, Repr

/-- Classification of a `SevStepError` by the taxonomy of the spec.
Modelled from the spec: section 7 lists the kinds `TriggerFailed`,
`Timeout`, `PageTracking`, `MultiStep`, `Abort` ("the external abort
signal fired during a wait") and "a catch-all wrapped error".  Mapping the
code's variants onto that taxonomy, no variant maps to `abort`: the code's
`Other` is the catch-all. -/
inductive SpecErrorKind
  | triggerFailed
  | timeout
  | pageTracking
  | multiStep
  | abort
  | otherCatchAll
deriving DecidableEq, Repr

/-- Which kind of the spec's error taxonomy a code error belongs to. -/
def SevStepError.specKind : SevStepError → SpecErrorKind
  | .TriggerFailed _ => .triggerFailed
  | .Timeout => .timeout
  | .PageTracking _ _ _ => .pageTracking
  | .MultiStep _ => .multiStep
  | .Other _ => .otherCatchAll

/-- Decoded content of the mailbox event buffer.  The source stores an
`event_type` tag plus a raw byte buffer; the driver always writes a payload
matching the tag, and `poll_event`/`block_untill_event` decode the buffer
according to the tag, so the model stores the typed payload directly. -/
inductive EventPayload
  | pf (e : PageFaultEvent)
  | step (e : SevStepEvent)
deriving DecidableEq, Repr

/-- The decode step shared by `poll_event` and `block_untill_event`
(`api.rs` lines 336-352): the tag selects the typed view of the buffer. -/
def decodePayload : EventPayload → Event
  | .pf e => .PageFaultEvent e
  | .step e => .StepEvent e

/-- The page-aligned shared mailbox (`shared_mem_region_t` as initialized
and manipulated in `api.rs`): spinlock word, acknowledgment flag,
have-event flag and the event buffer.  `spinlock_held` is `true` while the
userland side holds the lock. -/
structure SharedMemRegion where
  spinlock_held : Bool
  event_acked : Nat
  have_event : Nat
  payload : EventPayload
deriving DecidableEq, Repr

/-- State of the mailbox right after `SevStep::new`: lock released,
`event_acked = 1`, `have_event = 0` (`api.rs` lines 116-118). -/
def initialMailbox (garbage : EventPayload) : SharedMemRegion :=
  { spinlock_held := false, event_acked := 1, have_event := 0, payload := garbage }

/-- `SevStep::ack_event` (`api.rs` lines 360-371): lock, set
`event_acked = 1` and `have_event = 0`, unlock. -/
def ack_event (mb : SharedMemRegion) : SharedMemRegion :=
  { mb with spinlock_held := false, event_acked := 1, have_event := 0 }

/-- What `self.abort.try_recv()` returns in one polling iteration:
a signal, nothing, or a channel error (`crossbeam` `TryRecvError`). -/
inductive AbortRecv
  | signaled
  | empty
  | disconnected
deriving DecidableEq, Repr

/-- What `trigger_result.try_recv()` returns in one polling iteration.
The channel carries the trigger function's `Result<(), anyhow::Error>`,
modelled as `Option String` (`none` for `Ok(())`, `some msg` for an error
result).  `disconnected` is the channel error case: the spawned thread
dropped the sender without sending (it panicked before `send`). -/
inductive TriggerRecv
  | finished (r : Option String)
  | empty
  | disconnected
deriving DecidableEq, Repr

/-- Environment observed by one iteration of the busy-poll loop of
`block_untill_event`: the two channel reads, an optional event posted by
the driver before this iteration's mailbox check, and whether
`start_timestamp.elapsed() > timeout` at this iteration's timeout check. -/
structure PollEnv where
  abort : AbortRecv
  trigger : TriggerRecv
  driver_post : Option EventPayload
  timeout_elapsed : Bool
deriving DecidableEq, Repr

/-- The driver's side of the protocol: posting an event writes the payload
and sets `have_event = 1` with the acknowledgment flag cleared. -/
def applyDriverPost (post : Option EventPayload) (mb : SharedMemRegion) :
    SharedMemRegion :=
  match post with
  | some p => { mb with have_event := 1, event_acked := 0, payload := p }
  | none => mb

/-- Outcome of one iteration of the polling loop. -/
inductive IterStep
  | exitErr (e : SevStepError) (mb : SharedMemRegion)
  | found (mb : SharedMemRegion)
  | continueLoop (trigger_finished : Bool) (mb : SharedMemRegion)
deriving Repr

/-- The mailbox check and timeout check at the end of one polling
iteration (`api.rs` lines 316-331): lock, break while holding the lock if
`have_event == 1`, otherwise unlock and fail with `Timeout` when a timeout
was supplied and has elapsed. -/
def blockIterTail (timeout_isSome trigger_finished : Bool)
    (mb : SharedMemRegion) (env : PollEnv) : IterStep :=
  let mb := { mb with spinlock_held := true }
  if mb.have_event = 1 then
    .found mb
  else
    let mb := { mb with spinlock_held := false }
    if timeout_isSome && env.timeout_elapsed then
      .exitErr .Timeout mb
    else
      .continueLoop trigger_finished mb

/-- One iteration of the polling loop of `block_untill_event`
(`api.rs` lines 291-332), checking in source order: the abort channel,
the trigger result channel (skipped once the trigger finished), the
mailbox, the timeout.  Note the trigger check of the source matches
`Ok(_)`: a received trigger result is treated as "trigger finished"
whether the carried `Result` is `Ok` or `Err`; only the channel-error arm
produces `TriggerFailed`. -/
def blockIter (timeout_isSome trigger_finished : Bool)
    (mb : SharedMemRegion) (env : PollEnv) : IterStep :=
  let mb := applyDriverPost env.driver_post mb
  match env.abort with
  | .signaled => .exitErr (.Other "received abort signal") mb
  | .disconnected => .exitErr (.Other "error checking abort channel") mb
  | .empty =>
    if trigger_finished then
      blockIterTail timeout_isSome true mb env
    else
      match env.trigger with
      | .finished _ => blockIterTail timeout_isSome true mb env
      | .empty => blockIterTail timeout_isSome false mb env
      | .disconnected =>
        .exitErr (.TriggerFailed "trigger result channel disconnected") mb

/-- The post-loop decode of `block_untill_event` (`api.rs` lines 334-355),
entered holding the spinlock: decode the event; on a step event with
`retired_instructions > 1` while `error_on_multi_step` is set, unlock and
fail with `MultiStep`; otherwise unlock and return the event. -/
def finishEvent (error_on_multi_step : Bool) (mb : SharedMemRegion) :
    Except SevStepError Event × SharedMemRegion :=
  match mb.payload with
  | .pf e => (.ok (.PageFaultEvent e), { mb with spinlock_held := false })
  | .step e =>
    if error_on_multi_step && 1 < e.retired_instructions then
      (.error (.MultiStep e), { mb with spinlock_held := false })
    else
      (.ok (.StepEvent e), { mb with spinlock_held := false })

/-- Result of running `block_untill_event` against a finite list of
polling-iteration environments: either the function returned (with the
final mailbox state), or it is still busy-polling after consuming every
supplied environment. -/
inductive BlockResult
  | ret (r : Except SevStepError Event) (mb : SharedMemRegion)
  | polling (trigger_finished : Bool) (mb : SharedMemRegion)
deriving Repr

/-- The busy-poll loop of `block_untill_event`, iterated over the supplied
environments. -/
def blockLoop (error_on_multi_step timeout_isSome trigger_finished : Bool)
    (mb : SharedMemRegion) : List PollEnv → BlockResult
  | [] => .polling trigger_finished mb
  | env :: rest =>
    match blockIter timeout_isSome trigger_finished mb env with
    | .exitErr e mb2 => .ret (.error e) mb2
    | .found mb2 =>
      let fe := finishEvent error_on_multi_step mb2
      .ret fe.1 fe.2
    | .continueLoop tf2 mb2 =>
      blockLoop error_on_multi_step timeout_isSome tf2 mb2 rest

/-- `SevStep::block_untill_event` (`api.rs` lines 277-356): spawn the
trigger, then busy-poll with `trigger_finished` initially `false`. -/
def block_untill_event (error_on_multi_step timeout_isSome : Bool)
    (mb : SharedMemRegion) (envs : List PollEnv) : BlockResult :=
  blockLoop error_on_multi_step timeout_isSome false mb envs

/-- Whether the multi-step guard of `block_untill_event` fires for a
decoded payload. -/
def multiStepGuard (error_on_multi_step : Bool) : EventPayload → Bool
  | .pf _ => false
  | .step e => error_on_multi_step && decide (1 < e.retired_instructions)

/-- A sample page-fault event used by concrete statements. -/
def pfSample : PageFaultEvent := { faulted_gpa := 4096, register_values := none }

/-- A step event retiring two instructions, used by concrete statements. -/
def step2Sample : SevStepEvent :=
  { retired_instructions := 2, register_values := none, cache_trace := none }

/-- A step event retiring zero instructions, used by concrete statements. -/
def step0Sample : SevStepEvent :=
  { retired_instructions := 0, register_values := none, cache_trace := none }

/-- A single-instruction step event, used by concrete statements. -/
def step1Sample : SevStepEvent :=
  { retired_instructions := 1, register_values := none, cache_trace := none }

/-- A page-fault event at a given guest-physical address with no register
snapshot, used by concrete statements. -/
def pfEvent (gpa : Nat) : Event :=
  .PageFaultEvent { faulted_gpa := gpa, register_values := none }

/-- Observable actions of the `TargetedStepper::run` loop on its
connection: acknowledging the current event and waiting for the next one. -/
inductive RunAct
  | ack
  | wait
deriving DecidableEq, Repr

/-- How the for-loop over the handler chain in `TargetedStepper::run`
(`single_stepper.rs` lines 492-519) ends for one event: the chain ran to
the end (all handlers `NEXT`), a handler broke out with `SKIP`, a handler
returned `SHUTDOWN` (run returns Ok), or a handler returned
`ErrorShutdown` (run returns Err). -/
inductive ChainExit
  | fellThrough
  | broke
  | returnedOk
  | returnedErr (message : String)
deriving DecidableEq, Repr

/-- The for-loop over the handler chain for one event, recording the
`ack_event` calls made inside the loop arms.  Handlers are modelled as
functions from the event to their returned action; the orchestrator's
control flow does not depend on handler-internal state. -/
def chainStep (handlers : List (Event → StateMachineNextAction)) (e : Event) :
    List RunAct × ChainExit :=
  match handlers with
  | [] => ([], .fellThrough)
  | h :: rest =>
    match h e with
    | .NEXT => chainStep rest e
    | .SKIP => ([.ack], .broke)
    | .SHUTDOWN => ([.ack], .returnedOk)
    | .ErrorShutdown m => ([], .returnedErr m)

/-- How processing one event ends at the level of the outer loop of
`TargetedStepper::run`. -/
inductive EventExit
  | continueRun
  | shutdownOk
  | errorOut (message : String)
deriving DecidableEq, Repr

/-- One iteration of the outer loop of `TargetedStepper::run` for one
received event: run the handler chain, then — crucially, also when a
handler broke out of the for-loop with `SKIP` — execute the
`self.api.ack_event()` that stands after the for-loop (line 520), before
waiting for the next event. -/
def processOneEvent (handlers : List (Event → StateMachineNextAction)) (e : Event) :
    List RunAct × EventExit :=
  let cs := chainStep handlers e
  match cs.2 with
  | .fellThrough => (cs.1 ++ [.ack], .continueRun)
  | .broke => (cs.1 ++ [.ack], .continueRun)
  | .returnedOk => (cs.1, .shutdownOk)
  | .returnedErr m => (cs.1, .errorOut m)

/-- Number of `ack_event` calls in a trace. -/
def ackCount (acts : List RunAct) : Nat :=
  acts.countP (fun a => decide (a = RunAct.ack))

/-- Final result of a `TargetedStepper::run` loop. -/
inductive StepperOutcome
  | ok
  | err (message : String)
deriving DecidableEq, Repr

/-- The outer loop of `TargetedStepper::run` over the stream of events
delivered by successive `block_untill_event` calls, producing the trace of
acknowledgments and waits.  An empty remaining stream means the run is
still blocked waiting for the next event. -/
def stepperRun (handlers : List (Event → StateMachineNextAction)) :
    List Event → List RunAct × Option StepperOutcome
  | [] => ([], none)
  | e :: rest =>
    let pe := processOneEvent handlers e
    match pe.2 with
    | .continueRun =>
      let r := stepperRun handlers rest
      (pe.1 ++ [.wait] ++ r.1, r.2)
    | .shutdownOk => (pe.1, some .ok)
    | .errorOut m => (pe.1, some (.err m))

/-- Result of the expected-RIP validation performed per counted step. -/
inductive RipCheck
  | pass
  | fetchFailed (message : String)
  | mismatch (message : String)
deriving DecidableEq, Repr

/-- The expected-instruction-pointer validation shared (as duplicated
code) by `StopAfterNSingleStepsHandler::process` (`single_stepper.rs`
lines 402-419) and `SkipUntilNSingleSteps::process`
(`state_machine_handlers.rs` lines 192-212): only the first
`expected.length` counted steps are checked; a missing register snapshot
is an error, a value mismatch is reported distinctly. -/
def ripCheck (expected : Option (List Nat)) (step_counter : Nat)
    (se : SevStepEvent) : RipCheck :=
  match expected with
  | none => .pass
  | some vals =>
    if step_counter < vals.length then
      match se.get_register_rip with
      | none => .fetchFailed "failed to get RIP to compare against expected rip values"
      | some got =>
        if vals.getD step_counter 0 = got then .pass
        else .mismatch "expected RIP does not match observed RIP"
    else .pass

/-- Mutable state of `StopAfterNSingleStepsHandler`
(`single_stepper.rs` lines 335-340; the name string is omitted). -/
structure StopAfterNState where
  step_counter : Nat
  abort_thresh : Nat
  expected_rip_values : Option (List Nat)
deriving DecidableEq, Repr

/-- `StopAfterNSingleStepsHandler::process` (`single_stepper.rs` lines
381-436): page faults pass through; zero-instruction steps pass through
uncounted; otherwise validate RIP, increment the counter, and return
`SHUTDOWN` once the counter exceeds (`>`) the threshold.  The context-map
write of the step counter has no control effect and is omitted. -/
def stopAfterN_process (st : StopAfterNState) (e : Event) :
    Except String (StopAfterNState × StateMachineNextAction) :=
  match e with
  | .PageFaultEvent _ => .ok (st, .NEXT)
  | .StepEvent se =>
    if se.retired_instructions = 0 then .ok (st, .NEXT)
    else
      match ripCheck st.expected_rip_values st.step_counter se with
      | .fetchFailed m => .error m
      | .mismatch m => .error m
      | .pass =>
        let st2 := { st with step_counter := st.step_counter + 1 }
        if st2.abort_thresh < st2.step_counter then .ok (st2, .SHUTDOWN)
        else .ok (st2, .NEXT)

/-- Feeding a list of events through `StopAfterNSingleStepsHandler`
one call at a time, collecting the returned actions. -/
def stopAfterN_runList (st : StopAfterNState) :
    List Event → Except String (List StateMachineNextAction)
  | [] => .ok []
  | e :: rest =>
    match stopAfterN_process st e with
    | .error m => .error m
    | .ok (st2, act) =>
      match stopAfterN_runList st2 rest with
      | .error m => .error m
      | .ok acts => .ok (act :: acts)

/-- Mutable state of `SkipUntilNSingleSteps`
(`state_machine_handlers.rs` lines 115-121). -/
structure SkipNState where
  step_counter : Nat
  wanted_step_count : Nat
  expected_rip_values : Option (List Nat)
  consecutive_zero_steps : Nat
deriving DecidableEq, Repr

/-- `SkipUntilNSingleSteps::ZERO_STEP_ABORT_THRESH`
(`state_machine_handlers.rs` line 126). -/
def ZERO_STEP_ABORT_THRESH : Nat := 10

/-- Result of a `SkipUntilNSingleSteps::process` call run against a finite
stream of further events.  `consumed` lists every event the handler
examined, in order, including the final pending one; every consumed event
except the final pending one was acknowledged before the next wait.
`stillWaiting` means the supplied stream was exhausted with the handler
still blocked in `block_untill_event`. -/
inductive SkipNRes
  | next (pending : Event) (consumed : List Event)
  | errorShutdown (message : String) (pending : Event) (consumed : List Event)
  | apiError (message : String) (consumed : List Event)
  | stillWaiting (consumed : List Event)
deriving DecidableEq, Repr

/-- How one iteration of the `SkipUntilNSingleSteps::process` loop ends. -/
inductive SkipNStep
  | continueWith (st : SkipNState)
  | complete
  | errorShutdown (message : String)
  | apiError (message : String)
deriving DecidableEq, Repr

/-- One iteration body of the `SkipUntilNSingleSteps::process` loop
(`state_machine_handlers.rs` lines 163-221).  Page faults are dropped (in
particular they do not touch the consecutive-zero counter); a
zero-instruction step increments that counter and is a hard error past the
threshold; a step with nonzero `retired_instructions` resets the
consecutive-zero counter, undergoes RIP validation and increments the step
counter, completing once the step counter equals the wanted count. -/
def skipNHandleEvent (st : SkipNState) (e : Event) : SkipNStep :=
  match e with
  | .PageFaultEvent _ => .continueWith st
  | .StepEvent se =>
    if se.retired_instructions = 0 then
      if ZERO_STEP_ABORT_THRESH < st.consecutive_zero_steps + 1 then
        .errorShutdown "SkipUntilNSingleSteps: too many consecutive zero steps"
      else
        .continueWith { st with consecutive_zero_steps := st.consecutive_zero_steps + 1 }
    else
      match ripCheck st.expected_rip_values st.step_counter se with
      | .fetchFailed m => .apiError m
      | .mismatch m => .errorShutdown m
      | .pass =>
        if st.step_counter + 1 = st.wanted_step_count then .complete
        else
          .continueWith
            { st with step_counter := st.step_counter + 1,
                      consecutive_zero_steps := 0 }

/-- The sub-loop of `SkipUntilNSingleSteps::process`
(`state_machine_handlers.rs` lines 145-223).  `e` is the event the handler
was invoked on; `stream` are the events its internal
`ack_event`/`block_untill_event` loop receives afterwards. -/
def skipNLoop (st : SkipNState) (e : Event) (stream : List Event)
    (consumed : List Event) : SkipNRes :=
  match skipNHandleEvent st e with
  | .complete => .next e (consumed ++ [e])
  | .errorShutdown m => .errorShutdown m e (consumed ++ [e])
  | .apiError m => .apiError m (consumed ++ [e])
  | .continueWith st2 =>
    match stream with
    | [] => .stillWaiting (consumed ++ [e])
    | e2 :: rest => skipNLoop st2 e2 rest (consumed ++ [e])

/-- Whether an event increments the step counter of the source's
`SkipUntilNSingleSteps` loop: a step event with nonzero
`retired_instructions`. -/
def countedStep : Event → Bool
  | .StepEvent se => decide (se.retired_instructions ≠ 0)
  | .PageFaultEvent _ => false

/-- `SequenceMatchingStrategy` (`state_machine_handlers.rs` lines 14-21). -/
inductive SequenceMatchingStrategy
  | StrictWithReset
  | StrictWithAbort
  | Scattered
deriving DecidableEq, Repr

/-- Mutable state of `SkipUntilPageFaultSequence`
(`state_machine_handlers.rs` lines 22-27; the name string is omitted). -/
structure SkipPFState where
  idx_next_pf : Nat
  pf_sequence : List Nat
  matching : SequenceMatchingStrategy
deriving DecidableEq, Repr

/-- How `SkipUntilPageFaultSequence::process` handles one event. -/
inductive SkipPFStep
  | continueWith (st : SkipPFState)
  | complete
  | abortErr (message : String)
  | panicOOB
deriving DecidableEq, Repr

/-- One iteration body of `SkipUntilPageFaultSequence::process`
(`state_machine_handlers.rs` lines 68-106): step events are dropped with a
warning; for a page fault the expected address is read by indexing
`pf_sequence[idx_next_pf]` — `panicOOB` models the out-of-bounds panic of
that indexing — and progress advances, resets, aborts or stays according
to the matching strategy, after which a single completion check compares
the index against the sequence length. -/
def skipPFHandleEvent (st : SkipPFState) (e : Event) : SkipPFStep :=
  match e with
  | .StepEvent _ => .continueWith st
  | .PageFaultEvent pf =>
    match st.pf_sequence[st.idx_next_pf]? with
    | none => .panicOOB
    | some expected_gpa =>
      match
        (if pf.faulted_gpa = expected_gpa then
          Except.ok { st with idx_next_pf := st.idx_next_pf + 1 }
        else
          match st.matching with
          | .StrictWithReset => Except.ok { st with idx_next_pf := 0 }
          | .StrictWithAbort =>
            Except.error "requested StrictWithAbort matching and got an unexpected fault"
          | .Scattered => Except.ok st : Except String SkipPFState)
      with
      | .error m => .abortErr m
      | .ok st2 =>
        if st2.idx_next_pf = st2.pf_sequence.length then .complete
        else .continueWith st2

/-- Result of a `SkipUntilPageFaultSequence::process` call run against a
finite stream of further events.  `consumed` lists every examined event in
order including the final pending one; `acks` counts the `ack_event`
calls, one per consumed event other than the final pending one. -/
inductive SkipPFRes
  | next (pending : Event) (consumed : List Event) (acks : Nat)
  | errorShutdown (message : String) (pending : Event) (consumed : List Event) (acks : Nat)
  | panicIndexOutOfBounds (consumed : List Event)
  | stillWaiting (consumed : List Event) (acks : Nat)
deriving DecidableEq, Repr

/-- The sub-loop of `SkipUntilPageFaultSequence::process`
(`state_machine_handlers.rs` lines 49-107): handle the current event; on
continuation acknowledge it and take the next event from the stream. -/
def skipPFLoop (st : SkipPFState) (e : Event) (stream : List Event)
    (consumed : List Event) (acks : Nat) : SkipPFRes :=
  match skipPFHandleEvent st e with
  | .panicOOB => .panicIndexOutOfBounds (consumed ++ [e])
  | .abortErr m => .errorShutdown m e (consumed ++ [e]) acks
  | .complete => .next e (consumed ++ [e]) acks
  | .continueWith st2 =>
    match stream with
    | [] => .stillWaiting (consumed ++ [e]) acks
    | e2 :: rest => skipPFLoop st2 e2 rest (consumed ++ [e]) (acks + 1)

/-- Whether a `SkipUntilPageFaultSequence` run hit the out-of-bounds
indexing panic. -/
def SkipPFRes.isPanic : SkipPFRes → Bool
  | .panicIndexOutOfBounds _ => true
  | .next _ _ _ => false
  | .errorShutdown _ _ _ _ => false
  | .stillWaiting _ _ => false

/-- Mutable state of `SkipIfNotOnTargetGPAs` (`single_stepper.rs` lines
135-141; the name string is omitted, the target set is modelled as a
list, the tracking mode as a `Nat` discriminant).  `on_victim_pages =
true` is the spec's `OnTarget` state, `false` is `OffTarget`. -/
structure SkipIfNotState where
  on_victim_pages : Bool
  target_gpas : List Nat
  track_mode : Nat
  timer_value : Nat
deriving DecidableEq, Repr

/-- Control calls `SkipIfNotOnTargetGPAs::process` issues on the
connection, recorded abstractly (the model assumes they succeed; any
failure would propagate as an error and is outside claim C9). -/
inductive ApiCall
  | track_page (gpa : Nat) (mode : Nat)
  | untrack_page (gpa : Nat) (mode : Nat)
  | track_all_pages (mode : Nat)
  | untrack_all_pages (mode : Nat)
  | start_stepping (timer_value : Nat) (target_gpas : List Nat) (flush_tlb : Bool)
  | stop_stepping
deriving DecidableEq, Repr

/-- `SkipIfNotOnTargetGPAs::process` (`single_stepper.rs` lines 159-221):
step events pass through as `NEXT`; a fault at a target address while
already on the victim pages is a hard error; entering the victim pages
tracks all pages, untracks the targets and starts stepping; leaving them
stops stepping, untracks all and re-tracks the targets; finally the
returned action is `NEXT` exactly when the new state is on the victim
pages, `SKIP` otherwise. -/
def skipIfNot_process (st : SkipIfNotState) (e : Event) :
    Except String (SkipIfNotState × List ApiCall × StateMachineNextAction) :=
  match e with
  | .StepEvent _ => .ok (st, [], .NEXT)
  | .PageFaultEvent pf =>
    if st.on_victim_pages then
      if st.target_gpas.contains pf.faulted_gpa then
        .error "Internal state assumed to be on victim pages but got page fault for victim page"
      else
        let calls := [ApiCall.stop_stepping, ApiCall.untrack_all_pages st.track_mode]
          ++ st.target_gpas.map (fun g => ApiCall.track_page g st.track_mode)
        let st2 := { st with on_victim_pages := false }
        .ok (st2, calls, if st2.on_victim_pages then .NEXT else .SKIP)
    else
      if st.target_gpas.contains pf.faulted_gpa then
        let calls := [ApiCall.track_all_pages st.track_mode]
          ++ st.target_gpas.map (fun g => ApiCall.untrack_page g st.track_mode)
          ++ [ApiCall.start_stepping st.timer_value st.target_gpas true]
        let st2 := { st with on_victim_pages := true }
        .ok (st2, calls, if st2.on_victim_pages then .NEXT else .SKIP)
      else
        .ok (st, [], if st.on_victim_pages then .NEXT else .SKIP)

/-- C1. In the source, the background trigger completing with an `Err`
result does NOT make `block_untill_event` fail with `TriggerFailed`: the
`Ok(_)` arm of the `trigger_result.try_recv()` match treats any received
result, including `Err`, as the trigger having finished successfully, and
the wait continues.  Concretely: the trigger's error result arrives in the
first polling iteration, a page-fault event arrives in the second, and the
call returns that event instead of failing with `TriggerFailed`. -/
theorem c1_trigger_error_result_swallowed :
    block_untill_event false false (initialMailbox (.pf pfSample))
      [ { abort := .empty, trigger := .finished (some "trigger returned an error"),
          driver_post := none, timeout_elapsed := false },
        { abort := .empty, trigger := .empty,
          driver_post := some (.pf pfSample), timeout_elapsed := false } ]
      = .ret (.ok (.PageFaultEvent pfSample))
          { spinlock_held := false, event_acked := 0, have_event := 1,
            payload := .pf pfSample } := by
  rfl

/-- Helper: when the first polling iteration sees no abort signal, no
trigger channel error and a pending mailbox event, the loop breaks out of
the busy-poll at the mailbox check of that very iteration and hands the
locked mailbox to the decode step. -/
theorem blockLoop_pending_found (eoms ts tf : Bool) (mb : SharedMemRegion)
    (env : PollEnv) (rest : List PollEnv)
    (habort : env.abort = .empty) (htrig : env.trigger ≠ .disconnected)
    (hpost : env.driver_post = none) (hhave : mb.have_event = 1) :
    blockLoop eoms ts tf mb (env :: rest)
      = .ret (finishEvent eoms { mb with spinlock_held := true }).1
             (finishEvent eoms { mb with spinlock_held := true }).2 := by
  obtain ⟨ab, tr, post, te⟩ := env
  dsimp only at habort htrig hpost
  subst habort
  subst hpost
  cases tr with
  | disconnected => exact absurd rfl htrig
  | finished r =>
    cases tf <;>
      simp [blockLoop, blockIter, applyDriverPost, blockIterTail, hhave]
  | empty =>
    cases tf <;>
      simp [blockLoop, blockIter, applyDriverPost, blockIterTail, hhave]

/-- C5. With `error_on_multi_step` set and the pending mailbox event being
a step event that retired more than one instruction, `block_untill_event`
fails with `MultiStep` carrying that step event; the spinlock is released,
the mailbox flags are untouched (`have_event` still `1`, `event_acked`
still `0`), and only an explicit `ack_event` call afterwards clears them:
the `MultiStep` error path performs no implicit acknowledgment. -/
theorem c5_multistep_no_implicit_ack
    (ts : Bool) (mb : SharedMemRegion) (e : SevStepEvent)
    (env : PollEnv) (rest : List PollEnv)
    (habort : env.abort = .empty) (htrig : env.trigger ≠ .disconnected)
    (hpost : env.driver_post = none)
    (hhave : mb.have_event = 1) (hacked : mb.event_acked = 0)
    (hpay : mb.payload = .step e) (hmulti : 1 < e.retired_instructions) :
    block_untill_event true ts mb (env :: rest)
      = .ret (.error (.MultiStep e)) { mb with spinlock_held := false } ∧
    ({ mb with spinlock_held := false } : SharedMemRegion).spinlock_held = false ∧
    ({ mb with spinlock_held := false } : SharedMemRegion).have_event = 1 ∧
    ({ mb with spinlock_held := false } : SharedMemRegion).event_acked = 0 ∧
    (ack_event { mb with spinlock_held := false }).have_event = 0 ∧
    (ack_event { mb with spinlock_held := false }).event_acked = 1 := by
  have hfe : finishEvent true { mb with spinlock_held := true }
      = (.error (.MultiStep e), { mb with spinlock_held := false }) := by
    simp [finishEvent, hpay, hmulti]
  refine ⟨?_, rfl, hhave, hacked, rfl, rfl⟩
  calc block_untill_event true ts mb (env :: rest)
      = .ret (finishEvent true { mb with spinlock_held := true }).1
             (finishEvent true { mb with spinlock_held := true }).2 :=
        blockLoop_pending_found true ts false mb env rest habort htrig hpost hhave
    _ = _ := by rw [hfe]

/-- C5 witness: the theorem applied at a concrete mailbox holding a
two-instruction step event and a quiet first polling iteration. -/
theorem c5_multistep_no_implicit_ack_witness :
    block_untill_event true false
        { spinlock_held := false, event_acked := 0, have_event := 1,
          payload := .step step2Sample }
        [ { abort := .empty, trigger := .empty, driver_post := none,
            timeout_elapsed := false } ]
      = .ret (.error (.MultiStep step2Sample))
          { ({ spinlock_held := false, event_acked := 0, have_event := 1,
               payload := .step step2Sample } : SharedMemRegion)
            with spinlock_held := false } ∧
    ({ ({ spinlock_held := false, event_acked := 0, have_event := 1,
          payload := .step step2Sample } : SharedMemRegion)
       with spinlock_held := false } : SharedMemRegion).spinlock_held = false ∧
    ({ ({ spinlock_held := false, event_acked := 0, have_event := 1,
          payload := .step step2Sample } : SharedMemRegion)
       with spinlock_held := false } : SharedMemRegion).have_event = 1 ∧
    ({ ({ spinlock_held := false, event_acked := 0, have_event := 1,
          payload := .step step2Sample } : SharedMemRegion)
       with spinlock_held := false } : SharedMemRegion).event_acked = 0 ∧
    (ack_event { ({ spinlock_held := false, event_acked := 0, have_event := 1,
                    payload := .step step2Sample } : SharedMemRegion)
                 with spinlock_held := false }).have_event = 0 ∧
    (ack_event { ({ spinlock_held := false, event_acked := 0, have_event := 1,
                    payload := .step step2Sample } : SharedMemRegion)
                 with spinlock_held := false }).event_acked = 1 :=
  c5_multistep_no_implicit_ack false _ step2Sample _ [] rfl (by decide)
    rfl rfl rfl rfl (by decide)

/-- C6. The polling loop checks abort, trigger, mailbox and timeout in
that fixed order, so with an event already pending in the mailbox at the
first iteration (no abort signaled, trigger channel healthy) the call
never takes the `Timeout` branch, even if the supplied timeout has already
elapsed at every iteration; and unless the multi-step guard fires for the
pending payload, the pending event itself is returned. -/
theorem c6_pending_event_beats_timeout
    (eoms ts : Bool) (mb : SharedMemRegion) (env : PollEnv) (rest : List PollEnv)
    (habort : env.abort = .empty) (htrig : env.trigger ≠ .disconnected)
    (hpost : env.driver_post = none) (hhave : mb.have_event = 1) :
    (∀ mb2, block_untill_event eoms ts mb (env :: rest)
        ≠ .ret (.error .Timeout) mb2) ∧
    (multiStepGuard eoms mb.payload = false →
      block_untill_event eoms ts mb (env :: rest)
        = .ret (.ok (decodePayload mb.payload)) { mb with spinlock_held := false }) := by
  have hb := blockLoop_pending_found eoms ts false mb env rest habort htrig hpost hhave
  constructor
  · intro mb2 hcontra
    rw [block_untill_event, hb] at hcontra
    cases hpay : mb.payload with
    | pf pe => simp [finishEvent, hpay] at hcontra
    | step se =>
      by_cases hg : (eoms && decide (1 < se.retired_instructions)) = true
      · simp [finishEvent, hpay, hg] at hcontra
      · simp [finishEvent, hpay, hg] at hcontra
  · intro hguard
    rw [block_untill_event, hb]
    cases hpay : mb.payload with
    | pf pe => simp [finishEvent, decodePayload, hpay]
    | step se =>
      rw [hpay] at hguard
      simp only [multiStepGuard] at hguard
      simp [finishEvent, decodePayload, hpay, hguard]

/-- C6 witness: a pending page-fault event with an elapsed timeout in the
first iteration is returned, and the result is not `Timeout`. -/
theorem c6_pending_event_beats_timeout_witness :
    (∀ mb2, block_untill_event false true
        { spinlock_held := false, event_acked := 0, have_event := 1,
          payload := .pf pfSample }
        [ { abort := .empty, trigger := .empty, driver_post := none,
            timeout_elapsed := true } ]
        ≠ .ret (.error .Timeout) mb2) ∧
    (multiStepGuard false
        ({ spinlock_held := false, event_acked := 0, have_event := 1,
           payload := .pf pfSample } : SharedMemRegion).payload = false →
      block_untill_event false true
        { spinlock_held := false, event_acked := 0, have_event := 1,
          payload := .pf pfSample }
        [ { abort := .empty, trigger := .empty, driver_post := none,
            timeout_elapsed := true } ]
        = .ret (.ok (decodePayload
            ({ spinlock_held := false, event_acked := 0, have_event := 1,
               payload := .pf pfSample } : SharedMemRegion).payload))
            { ({ spinlock_held := false, event_acked := 0, have_event := 1,
                 payload := .pf pfSample } : SharedMemRegion)
              with spinlock_held := false }) :=
  c6_pending_event_beats_timeout false true _ _ [] rfl (by decide) rfl rfl

/-- C7 counterexample: the abort path does not produce a distinct `Abort`
variant.  At a concrete input (abort signaled in the first iteration, an
event already pending, timeout elapsed) the call fails with the catch-all
`Other "received abort signal"` error, whose place in the spec's error
taxonomy is the catch-all kind, not the `Abort` kind. -/
theorem c7_abort_error_counterexample :
    (block_untill_event false true
        { spinlock_held := false, event_acked := 0, have_event := 1,
          payload := .pf pfSample }
        [ { abort := .signaled, trigger := .empty, driver_post := none,
            timeout_elapsed := true } ]
      = .ret (.error (.Other "received abort signal"))
          { spinlock_held := false, event_acked := 0, have_event := 1,
            payload := .pf pfSample }) ∧
    (SevStepError.Other "received abort signal").specKind ≠ SpecErrorKind.abort :=
  ⟨rfl, by decide⟩

/-- C7 as amended: if the abort channel is signaled before an event is
observed, `block_untill_event` fails with the catch-all `Other` error
carrying the message "received abort signal" (the code's error enumeration
has no distinct abort variant) and never returns the underlying event, for
every mailbox state and timeout argument. -/
theorem c7_abort_returns_catch_all
    (eoms ts : Bool) (mb : SharedMemRegion) (env : PollEnv) (rest : List PollEnv)
    (habort : env.abort = .signaled) :
    block_untill_event eoms ts mb (env :: rest)
      = .ret (.error (.Other "received abort signal"))
          (applyDriverPost env.driver_post mb) ∧
    ∀ ev mb2, block_untill_event eoms ts mb (env :: rest) ≠ .ret (.ok ev) mb2 := by
  obtain ⟨ab, tr, post, te⟩ := env
  dsimp only at habort ⊢
  subst habort
  constructor
  · simp [block_untill_event, blockLoop, blockIter]
  · intro ev mb2 h
    simp [block_untill_event, blockLoop, blockIter] at h

/-- C7 witness: the amended theorem at a concrete input (event pending,
timeout elapsed, abort signaled). -/
theorem c7_abort_returns_catch_all_witness :
    block_untill_event false true
        { spinlock_held := false, event_acked := 0, have_event := 1,
          payload := .pf pfSample }
        [ { abort := .signaled, trigger := .empty, driver_post := none,
            timeout_elapsed := true } ]
      = .ret (.error (.Other "received abort signal"))
          (applyDriverPost
            ({ abort := .signaled, trigger := .empty, driver_post := none,
               timeout_elapsed := true } : PollEnv).driver_post
            { spinlock_held := false, event_acked := 0, have_event := 1,
              payload := .pf pfSample }) ∧
    ∀ ev mb2, block_untill_event false true
        { spinlock_held := false, event_acked := 0, have_event := 1,
          payload := .pf pfSample }
        [ { abort := .signaled, trigger := .empty, driver_post := none,
            timeout_elapsed := true } ]
        ≠ .ret (.ok ev) mb2 :=
  c7_abort_returns_catch_all false true _ _ [] rfl

/-- Helper: the `ack_event` calls the handler-chain for-loop itself makes,
by exit kind: none when the chain fell through or returned an error, one
in the `SKIP` and `SHUTDOWN` arms. -/
theorem chainStep_acts (handlers : List (Event → StateMachineNextAction)) (e : Event) :
    ((chainStep handlers e).2 = .fellThrough → (chainStep handlers e).1 = []) ∧
    ((chainStep handlers e).2 = .broke → (chainStep handlers e).1 = [.ack]) ∧
    ((chainStep handlers e).2 = .returnedOk → (chainStep handlers e).1 = [.ack]) ∧
    (∀ m, (chainStep handlers e).2 = .returnedErr m → (chainStep handlers e).1 = []) := by
  induction handlers with
  | nil => simp [chainStep]
  | cons h rest ih =>
    cases hact : h e with
    | NEXT => simpa [chainStep, hact] using ih
    | SKIP => simp [chainStep, hact]
    | SHUTDOWN => simp [chainStep, hact]
    | ErrorShutdown m => simp [chainStep, hact]

/-- C2 counterexample: a single handler returning `SKIP` makes
`TargetedStepper::run` acknowledge the same event twice — once in the
`SKIP` match arm and once at the acknowledgment after the for-loop, which
the `break` falls through to — before the next wait. -/
theorem c2_skip_double_ack_counterexample :
    processOneEvent [fun _ => StateMachineNextAction.SKIP]
        (.PageFaultEvent pfSample)
      = ([.ack, .ack], .continueRun) ∧
    ackCount (processOneEvent [fun _ => StateMachineNextAction.SKIP]
        (.PageFaultEvent pfSample)).1 = 2 ∧
    (stepperRun [fun _ => StateMachineNextAction.SKIP]
        [.PageFaultEvent pfSample]).1 = [.ack, .ack, .wait] :=
  ⟨rfl, rfl, rfl⟩

/-- C2 as amended: per received event, `TargetedStepper::run` calls
`ack_event` exactly once when the whole chain returned `NEXT` or when a
handler returned `SHUTDOWN`, zero times on `ErrorShutdown`, but twice when
a handler returned `SKIP`: the `SKIP` arm acknowledges and then breaks
into the post-loop acknowledgment. -/
theorem c2_ack_count_by_chain_exit
    (handlers : List (Event → StateMachineNextAction)) (e : Event) :
    ((chainStep handlers e).2 = .fellThrough →
      processOneEvent handlers e = ([.ack], .continueRun)) ∧
    ((chainStep handlers e).2 = .broke →
      processOneEvent handlers e = ([.ack, .ack], .continueRun)) ∧
    ((chainStep handlers e).2 = .returnedOk →
      processOneEvent handlers e = ([.ack], .shutdownOk)) ∧
    (∀ m, (chainStep handlers e).2 = .returnedErr m →
      processOneEvent handlers e = ([], .errorOut m)) := by
  obtain ⟨h1, h2, h3, h4⟩ := chainStep_acts handlers e
  refine ⟨fun h => ?_, fun h => ?_, fun h => ?_, fun m h => ?_⟩
  · simp [processOneEvent, h, h1 h]
  · simp [processOneEvent, h, h2 h]
  · simp [processOneEvent, h, h3 h]
  · simp [processOneEvent, h, h4 m h]

/-- Helper: from step counter `c` with threshold `n`, `c ≤ n`, feeding
exactly `n + 1 - c` single-instruction steps yields `NEXT` for each of the
first `n - c` and `SHUTDOWN` for the last. -/
theorem stopAfterN_replicate (k : Nat) :
    ∀ c n : Nat, c ≤ n → c + k = n + 1 →
    stopAfterN_runList { step_counter := c, abort_thresh := n, expected_rip_values := none }
        (List.replicate k (.StepEvent step1Sample))
      = .ok (List.replicate (n - c) .NEXT ++ [.SHUTDOWN]) := by
  induction k with
  | zero => intro c n hc hk; omega
  | succ k ih =>
    intro c n hc hk
    rcases Nat.lt_or_ge c n with hlt | hge
    · have hrec := ih (c + 1) n hlt (by omega)
      have hnc : n - c = (n - (c + 1)) + 1 := by omega
      have hp : stopAfterN_process
            { step_counter := c, abort_thresh := n, expected_rip_values := none }
            (.StepEvent step1Sample)
          = .ok ({ step_counter := c + 1, abort_thresh := n,
                   expected_rip_values := none }, .NEXT) := by
        simp [stopAfterN_process, step1Sample, ripCheck, Nat.not_lt.mpr hlt]
      simp only [List.replicate_succ, stopAfterN_runList, hp, hrec]
      simp [hnc, List.replicate_succ]
    · have hcn : c = n := le_antisymm hc hge
      subst hcn
      obtain rfl : k = 0 := by omega
      simp [stopAfterN_runList, stopAfterN_process, step1Sample, ripCheck]

/-- C4 counterexample: with threshold `n = 3`, three single-instruction
step events all yield `NEXT` — the handler does not return `SHUTDOWN` at
the 3rd counted step, so the run does not terminate after exactly 3
counted steps. -/
theorem c4_no_shutdown_at_third_step_counterexample :
    stopAfterN_runList { step_counter := 0, abort_thresh := 3, expected_rip_values := none }
        [.StepEvent step1Sample, .StepEvent step1Sample, .StepEvent step1Sample]
      = .ok [.NEXT, .NEXT, .NEXT] := rfl

/-- C4 as amended: `StopAfterNSingleStepsHandler` with threshold `n`
returns `SHUTDOWN` at the (n+1)-th counted step event — the first at
which the counter exceeds the threshold — with `NEXT` at each of the first
`n`; zero-instruction step events are ignored and leave the state
unchanged. -/
theorem c4_shutdown_when_count_exceeds_threshold :
    (∀ n : Nat,
      stopAfterN_runList { step_counter := 0, abort_thresh := n, expected_rip_values := none }
          (List.replicate (n + 1) (.StepEvent step1Sample))
        = .ok (List.replicate n .NEXT ++ [.SHUTDOWN])) ∧
    (∀ (st : StopAfterNState) (se : SevStepEvent), se.retired_instructions = 0 →
      stopAfterN_process st (.StepEvent se) = .ok (st, .NEXT)) := by
  constructor
  · intro n
    simpa using stopAfterN_replicate (n + 1) 0 n (Nat.zero_le n) (by omega)
  · intro st se h
    simp [stopAfterN_process, h]

/-- C8. `SkipUntilPageFaultSequence` with expected sequence `[A, B, C]`
(here `[1, 2, 3]`): under `Scattered` the fault stream `A, X, B, Y, C`
completes with `NEXT`, the completing event `C` pending and only the four
earlier events acknowledged; under `StrictWithAbort` the same stream is a
hard error at `X`; under `StrictWithReset` the stream `A, X, A, B, C`
completes, and the single-event transition at `X` resets the progress
index to the start of the sequence (exactly once in that run). -/
theorem c8_page_fault_sequence_policies :
    skipPFLoop { idx_next_pf := 0, pf_sequence := [1, 2, 3], matching := .Scattered }
        (pfEvent 1) [pfEvent 7, pfEvent 2, pfEvent 8, pfEvent 3] [] 0
      = .next (pfEvent 3)
          [pfEvent 1, pfEvent 7, pfEvent 2, pfEvent 8, pfEvent 3] 4 ∧
    skipPFLoop { idx_next_pf := 0, pf_sequence := [1, 2, 3], matching := .StrictWithAbort }
        (pfEvent 1) [pfEvent 7, pfEvent 2, pfEvent 8, pfEvent 3] [] 0
      = .errorShutdown "requested StrictWithAbort matching and got an unexpected fault"
          (pfEvent 7) [pfEvent 1, pfEvent 7] 1 ∧
    skipPFLoop { idx_next_pf := 0, pf_sequence := [1, 2, 3], matching := .StrictWithReset }
        (pfEvent 1) [pfEvent 7, pfEvent 1, pfEvent 2, pfEvent 3] [] 0
      = .next (pfEvent 3)
          [pfEvent 1, pfEvent 7, pfEvent 1, pfEvent 2, pfEvent 3] 4 ∧
    skipPFHandleEvent { idx_next_pf := 1, pf_sequence := [1, 2, 3], matching := .StrictWithReset }
        (pfEvent 7)
      = .continueWith { idx_next_pf := 0, pf_sequence := [1, 2, 3], matching := .StrictWithReset } :=
  ⟨rfl, rfl, rfl, rfl⟩

/-- C9. The `SkipIfNotOnTargetGPAs` two-state automaton: while off the
victim pages a fault at a non-target address yields `SKIP` with no state
change and no control calls; a fault at a target address transitions to
on-victim-pages (tracking all pages, untracking the targets, starting
stepping) and yields `NEXT`; while on the victim pages a fault at a target
address is a hard error; a fault at a non-target address transitions back
off (stopping stepping, untracking all, re-tracking the targets) and
yields `SKIP`; and step events always yield `NEXT` without changing the
state. -/
theorem c9_skip_if_not_on_target_automaton :
    (∀ (st : SkipIfNotState) (pf : PageFaultEvent),
      st.on_victim_pages = false → st.target_gpas.contains pf.faulted_gpa = false →
      skipIfNot_process st (.PageFaultEvent pf) = .ok (st, [], .SKIP)) ∧
    (∀ (st : SkipIfNotState) (pf : PageFaultEvent),
      st.on_victim_pages = false → st.target_gpas.contains pf.faulted_gpa = true →
      skipIfNot_process st (.PageFaultEvent pf)
        = .ok ({ st with on_victim_pages := true },
            [ApiCall.track_all_pages st.track_mode]
              ++ st.target_gpas.map (fun g => ApiCall.untrack_page g st.track_mode)
              ++ [ApiCall.start_stepping st.timer_value st.target_gpas true],
            .NEXT)) ∧
    (∀ (st : SkipIfNotState) (pf : PageFaultEvent),
      st.on_victim_pages = true → st.target_gpas.contains pf.faulted_gpa = true →
      skipIfNot_process st (.PageFaultEvent pf)
        = .error "Internal state assumed to be on victim pages but got page fault for victim page") ∧
    (∀ (st : SkipIfNotState) (pf : PageFaultEvent),
      st.on_victim_pages = true → st.target_gpas.contains pf.faulted_gpa = false →
      skipIfNot_process st (.PageFaultEvent pf)
        = .ok ({ st with on_victim_pages := false },
            [ApiCall.stop_stepping, ApiCall.untrack_all_pages st.track_mode]
              ++ st.target_gpas.map (fun g => ApiCall.track_page g st.track_mode),
            .SKIP)) ∧
    (∀ (st : SkipIfNotState) (se : SevStepEvent),
      skipIfNot_process st (.StepEvent se) = .ok (st, [], .NEXT)) := by
  refine ⟨fun st pf h1 h2 => ?_, fun st pf h1 h2 => ?_, fun st pf h1 h2 => ?_,
    fun st pf h1 h2 => ?_, fun st se => ?_⟩
  · have h2m : pf.faulted_gpa ∉ st.target_gpas := by simpa using h2
    simp [skipIfNot_process, h1, h2m]
  · have h2m : pf.faulted_gpa ∈ st.target_gpas := by simpa using h2
    simp [skipIfNot_process, h1, h2m]
  · have h2m : pf.faulted_gpa ∈ st.target_gpas := by simpa using h2
    simp [skipIfNot_process, h1, h2m]
  · have h2m : pf.faulted_gpa ∉ st.target_gpas := by simpa using h2
    simp [skipIfNot_process, h1, h2m]
  · simp [skipIfNot_process]

/-- Helper: how one iteration of the `SkipUntilNSingleSteps` loop relates
the step counter to the handled event: completion happens exactly on a
counted step that brings the counter to the wanted count, and a
continuation state keeps the wanted count and adds one to the counter
exactly when the event was a counted step. -/
theorem skipNHandleEvent_spec (st : SkipNState) (e : Event) :
    (skipNHandleEvent st e = .complete →
      countedStep e = true ∧ st.step_counter + 1 = st.wanted_step_count) ∧
    (∀ st2, skipNHandleEvent st e = .continueWith st2 →
      st2.wanted_step_count = st.wanted_step_count ∧
      st2.step_counter
        = st.step_counter + (if countedStep e then 1 else 0)) := by
  cases e with
  | PageFaultEvent pf =>
    refine ⟨fun h => by simp [skipNHandleEvent] at h, fun st2 h => ?_⟩
    simp only [skipNHandleEvent, SkipNStep.continueWith.injEq] at h
    subst h
    simp [countedStep]
  | StepEvent se =>
    by_cases hz : se.retired_instructions = 0
    · have hcs : countedStep (.StepEvent se) = false := by simp [countedStep, hz]
      by_cases ht : ZERO_STEP_ABORT_THRESH < st.consecutive_zero_steps + 1
      · refine ⟨fun h => ?_, fun st2 h => ?_⟩ <;>
          simp [skipNHandleEvent, hz, ht] at h
      · refine ⟨fun h => ?_, fun st2 h => ?_⟩
        · simp [skipNHandleEvent, hz, ht] at h
        · simp only [skipNHandleEvent, if_pos hz, if_neg ht,
            SkipNStep.continueWith.injEq] at h
          subst h
          simp [hcs]
    · have hcs : countedStep (.StepEvent se) = true := by simp [countedStep, hz]
      cases hrc : ripCheck st.expected_rip_values st.step_counter se with
      | fetchFailed m =>
        refine ⟨fun h => ?_, fun st2 h => ?_⟩ <;>
          simp [skipNHandleEvent, hz, hrc] at h
      | mismatch m =>
        refine ⟨fun h => ?_, fun st2 h => ?_⟩ <;>
          simp [skipNHandleEvent, hz, hrc] at h
      | pass =>
        by_cases hcomp : st.step_counter + 1 = st.wanted_step_count
        · refine ⟨fun _ => ⟨hcs, hcomp⟩, fun st2 h => ?_⟩
          simp [skipNHandleEvent, hz, hrc, hcomp] at h
        · refine ⟨fun h => ?_, fun st2 h => ?_⟩
          · simp [skipNHandleEvent, hz, hrc, hcomp] at h
          · simp only [skipNHandleEvent, if_neg hz, hrc, if_neg hcomp,
              SkipNStep.continueWith.injEq] at h
            subst h
            simp [hcs]

/-- Helper: whenever the `SkipUntilNSingleSteps` loop returns `NEXT`, the
number of consumed events that incremented the step counter (step events
with nonzero `retired_instructions`) plus the entry counter equals the
wanted count plus the counted steps already in the accumulator. -/
theorem skipNLoop_next_count (stream : List Event) :
    ∀ (st : SkipNState) (e : Event) (acc : List Event)
      (pending : Event) (consumed : List Event),
      skipNLoop st e stream acc = .next pending consumed →
      consumed.countP countedStep + st.step_counter
        = st.wanted_step_count + acc.countP countedStep := by
  induction stream with
  | nil =>
    intro st e acc pending consumed h
    rw [skipNLoop.eq_def] at h
    obtain ⟨hcmp, _⟩ := skipNHandleEvent_spec st e
    cases hhe : skipNHandleEvent st e with
    | complete =>
      rw [hhe] at h
      obtain ⟨hcs, hcount⟩ := hcmp hhe
      injection h with h1 h2
      subst h2
      simp [List.countP_append, hcs]
      omega
    | errorShutdown m => rw [hhe] at h; simp at h
    | apiError m => rw [hhe] at h; simp at h
    | continueWith st2 => rw [hhe] at h; simp at h
  | cons e2 rest ih =>
    intro st e acc pending consumed h
    rw [skipNLoop.eq_def] at h
    obtain ⟨hcmp, hcont⟩ := skipNHandleEvent_spec st e
    cases hhe : skipNHandleEvent st e with
    | complete =>
      rw [hhe] at h
      obtain ⟨hcs, hcount⟩ := hcmp hhe
      injection h with h1 h2
      subst h2
      simp [List.countP_append, hcs]
      omega
    | errorShutdown m => rw [hhe] at h; simp at h
    | apiError m => rw [hhe] at h; simp at h
    | continueWith st2 =>
      rw [hhe] at h
      simp only at h
      obtain ⟨hw, hc⟩ := hcont st2 hhe
      have hr := ih st2 e2 (acc ++ [e]) pending consumed h
      rw [hw, hc] at hr
      rcases hcse : countedStep e with _ | _ <;>
        · rw [hcse] at hr
          simp only [List.countP_append, List.countP_cons, List.countP_nil,
            hcse] at hr ⊢
          omega

/-- C3 counterexample: a step event with `retired_instructions = 2` —
neither 0 nor 1 — is counted toward N.  With `wanted_step_count = 1` the
handler returns `NEXT` immediately on such an event, whereas under the
claim it would not count and the handler would keep waiting. -/
theorem c3_two_instruction_step_counted_counterexample :
    skipNLoop { step_counter := 0, wanted_step_count := 1,
                expected_rip_values := none, consecutive_zero_steps := 0 }
        (.StepEvent step2Sample) [] []
      = .next (.StepEvent step2Sample) [.StepEvent step2Sample] := rfl

/-- C3 as amended: `SkipUntilNSingleSteps::process` consumes and
acknowledges events until exactly N step events with nonzero
`retired_instructions` (not only `== 1`) have occurred, then returns
`NEXT` with the completing event pending; zero-instruction steps are
tolerated up to 10 consecutive ones, the 11th consecutive zero step is a
hard error; page-fault events are dropped without affecting either
counter. -/
theorem c3_counts_nonzero_steps :
    (∀ (st : SkipNState) (e : Event) (stream : List Event)
        (pending : Event) (consumed : List Event),
      skipNLoop st e stream [] = .next pending consumed →
      consumed.countP countedStep + st.step_counter = st.wanted_step_count) ∧
    (skipNLoop { step_counter := 0, wanted_step_count := 1,
                 expected_rip_values := none, consecutive_zero_steps := 0 }
        (.StepEvent step0Sample)
        (List.replicate 9 (.StepEvent step0Sample) ++ [.StepEvent step1Sample]) []
      = .next (.StepEvent step1Sample)
          (List.replicate 10 (.StepEvent step0Sample) ++ [.StepEvent step1Sample])) ∧
    (skipNLoop { step_counter := 0, wanted_step_count := 1,
                 expected_rip_values := none, consecutive_zero_steps := 0 }
        (.StepEvent step0Sample) (List.replicate 10 (.StepEvent step0Sample)) []
      = .errorShutdown "SkipUntilNSingleSteps: too many consecutive zero steps"
          (.StepEvent step0Sample) (List.replicate 11 (.StepEvent step0Sample))) ∧
    (skipNLoop { step_counter := 0, wanted_step_count := 2,
                 expected_rip_values := none, consecutive_zero_steps := 0 }
        (.PageFaultEvent pfSample)
        [.StepEvent step1Sample, .PageFaultEvent pfSample, .StepEvent step1Sample] []
      = .next (.StepEvent step1Sample)
          [.PageFaultEvent pfSample, .StepEvent step1Sample,
           .PageFaultEvent pfSample, .StepEvent step1Sample]) := by
  refine ⟨?_, by rfl, by rfl, by rfl⟩
  intro st e stream pending consumed h
  have hr := skipNLoop_next_count stream st e [] pending consumed h
  simpa using hr

/-- Helper: if the progress index is within the sequence, handling one
event never hits the out-of-bounds panic, and any continuation state keeps
the index within the (unchanged) sequence. -/
theorem skipPFHandleEvent_inv (st : SkipPFState) (e : Event)
    (h : st.idx_next_pf < st.pf_sequence.length) :
    skipPFHandleEvent st e ≠ .panicOOB ∧
    (∀ st2, skipPFHandleEvent st e = .continueWith st2 →
      st2.idx_next_pf < st2.pf_sequence.length) := by
  cases e with
  | StepEvent se =>
    refine ⟨by simp [skipPFHandleEvent], fun st2 h2 => ?_⟩
    simp only [skipPFHandleEvent, SkipPFStep.continueWith.injEq] at h2
    exact h2 ▸ h
  | PageFaultEvent pf =>
    have hg : st.pf_sequence[st.idx_next_pf]? = some st.pf_sequence[st.idx_next_pf] :=
      List.getElem?_eq_getElem h
    by_cases he : pf.faulted_gpa = st.pf_sequence[st.idx_next_pf]
    · by_cases hlen : st.idx_next_pf + 1 = st.pf_sequence.length
      · refine ⟨?_, fun st2 h2 => ?_⟩ <;>
          simp [skipPFHandleEvent, hg, he, hlen] at *
      · refine ⟨?_, fun st2 h2 => ?_⟩
        · simp [skipPFHandleEvent, hg, he, hlen]
        · simp only [skipPFHandleEvent, hg, if_pos he] at h2
          simp only [if_neg hlen, SkipPFStep.continueWith.injEq] at h2
          subst h2
          simp
          omega
    · cases hm : st.matching with
      | StrictWithAbort =>
        refine ⟨?_, fun st2 h2 => ?_⟩ <;>
          simp [skipPFHandleEvent, hg, he, hm] at *
      | StrictWithReset =>
        have hlen0 : ¬ (0 = st.pf_sequence.length) := by omega
        refine ⟨?_, fun st2 h2 => ?_⟩
        · simp [skipPFHandleEvent, hg, he, hm, hlen0]
        · simp only [skipPFHandleEvent, hg, if_neg he, hm] at h2
          simp only [if_neg hlen0, SkipPFStep.continueWith.injEq] at h2
          subst h2
          simpa using Nat.pos_of_ne_zero (fun hc => hlen0 hc.symm)
      | Scattered =>
        have hlen : ¬ (st.idx_next_pf = st.pf_sequence.length) := by omega
        refine ⟨?_, fun st2 h2 => ?_⟩
        · simp [skipPFHandleEvent, hg, he, hm, hlen]
        · simp only [skipPFHandleEvent, hg, if_neg he, hm] at h2
          simp only [if_neg hlen, SkipPFStep.continueWith.injEq] at h2
          exact h2 ▸ h

/-- Helper: with the progress index within the sequence, the
`SkipUntilPageFaultSequence` loop never panics on any event stream. -/
theorem skipPFLoop_no_panic (stream : List Event) :
    ∀ (st : SkipPFState) (e : Event) (acc : List Event) (acks : Nat),
      st.idx_next_pf < st.pf_sequence.length →
      (skipPFLoop st e stream acc acks).isPanic = false := by
  induction stream with
  | nil =>
    intro st e acc acks h
    obtain ⟨hnp, _⟩ := skipPFHandleEvent_inv st e h
    cases hhe : skipPFHandleEvent st e with
    | panicOOB => exact absurd hhe hnp
    | abortErr m => simp [skipPFLoop, hhe, SkipPFRes.isPanic]
    | complete => simp [skipPFLoop, hhe, SkipPFRes.isPanic]
    | continueWith st2 => simp [skipPFLoop, hhe, SkipPFRes.isPanic]
  | cons e2 rest ih =>
    intro st e acc acks h
    obtain ⟨hnp, hc⟩ := skipPFHandleEvent_inv st e h
    rw [skipPFLoop.eq_def]
    cases hhe : skipPFHandleEvent st e with
    | panicOOB => exact absurd hhe hnp
    | abortErr m => simp [SkipPFRes.isPanic]
    | complete => simp [SkipPFRes.isPanic]
    | continueWith st2 =>
      exact ih st2 e2 (acc ++ [e]) (acks + 1) (hc st2 hhe)

/-- C10. `SkipUntilPageFaultSequence::process` indexes the expected
sequence at the progress index before checking completion: constructed
with an empty sequence, the very first page-fault event hits the
out-of-bounds indexing (modelled as the panic result) rather than
completing; constructed with any non-empty sequence, the index stays
strictly below the sequence length at every access, so the panic result is
unreachable for every initial event and event stream. -/
theorem c10_empty_sequence_panics_nonempty_safe :
    (∀ (matching : SequenceMatchingStrategy) (gpa : Nat)
        (regs : Option VmcbSaveArea) (stream : List Event),
      skipPFLoop { idx_next_pf := 0, pf_sequence := [], matching := matching }
          (.PageFaultEvent { faulted_gpa := gpa, register_values := regs }) stream [] 0
        = .panicIndexOutOfBounds
            [.PageFaultEvent { faulted_gpa := gpa, register_values := regs }]) ∧
    (∀ (seq : List Nat) (matching : SequenceMatchingStrategy) (e : Event)
        (stream : List Event),
      seq ≠ [] →
      (skipPFLoop { idx_next_pf := 0, pf_sequence := seq, matching := matching }
          e stream [] 0).isPanic = false) := by
  constructor
  · intro strat gpa regs stream
    simp [skipPFLoop, skipPFHandleEvent]
  · intro seq strat e stream hne
    exact skipPFLoop_no_panic stream _ e [] 0 (by simpa using List.length_pos.mpr hne)

end SevStep
